import Mathlib

/-!
Shallow embedding of the savingsessions reward calculator
(`src/savingsessions/calculation.py`, duplicated in `src/streamlit_app.py`).

Modelling conventions:
* Timestamps are half-hour slot indices (`Ts := ℤ`), with slot `48*d` the
  first half-hour of calendar day `d`, and day `0` a Monday.  A pendulum
  duration of `hh` half-hours is the integer `hh`.
* Reading values are exact rationals (`ℚ`), idealizing numpy float64.
* The remote API (`api.half_hourly_readings`) is a parameter: a function from
  (mpan, start_at, first) to the list of readings returned.  The meter id
  `meter_point.meters[0].id` is folded into the mpan key.
* Python sets/dicts are modelled by lists: `set.update` appends, membership
  scans; dict assignment prepends so that `List.lookup` (first match) sees the
  latest write, which matches dict overwrite semantics.
* Exceptions become `Except Unit`; a raised ValueError is `.error ()` and the
  try/except at the call sites maps it to `none`.
* The progress generator `tick` is modelled by a counter `ticks` incremented
  exactly where the source executes `next(tick)`; `attempts` counts the calls
  to `get_readings` (fetch attempts), and `fetches` records actual network
  requests issued.
-/

namespace SavingSessions

/-- Timestamps as half-hour slot indices since an epoch whose day 0 is a Monday. -/
abbrev Ts := Int

/-- `phh(hh)` : a pendulum duration of `hh` half-hours, i.e. the slot count itself. -/
def phh (hh : Int) : Int := hh

/-- `dt.date()` : the calendar day containing slot `t` (floor division by 48). -/
def date (t : Ts) : Int := Int.fdiv t 48

/-- pendulum `day_of_week` normalized so that 0 = Monday, …, 4 = Friday, 6 = Sunday. -/
def day_of_week (t : Ts) : Int := Int.emod (date t) 7

/-- `weekday(day)` from the source: True if day is a weekday
(pendulum `MONDAY <= day.day_of_week <= FRIDAY`). -/
def weekday (t : Ts) : Bool := 0 ≤ day_of_week t && day_of_week t ≤ 4

/-- `pendulum.period(a, b).range("minutes", 30)` for `a ≤ b`:
the ascending list of slots `a, a+1, …, b`, both endpoints included. -/
def periodRange30 (a b : Ts) : List Ts :=
  (List.range ((b - a).toNat + 1)).map (fun (i : Nat) => a + (i : Int))

/-- `pendulum.period(a, b).range("days")` for `b ≤ a`: the descending list of
day-steps `a, a - 1 day, …, b`, both endpoints included (pendulum iterates an
inverted period backwards from its start and includes the end). -/
def periodRangeDaysDesc (a b : Ts) : List Ts :=
  (List.range (((a - b).fdiv 48).toNat + 1)).map (fun (i : Nat) => a - 48 * (i : Int))

/-- One half-hourly reading `{startAt, value}` (endAt = startAt + 1 slot). -/
structure Reading where
  startAt : Ts
  value : ℚ
deriving DecidableEq, Repr

/-- The abstracted remote API: `api.half_hourly_readings(mpan, meter, start_at,
first, before=None)` becomes a function of `(mpan, start_at, first)`. -/
abbrev API := Int → Ts → Nat → List Reading

/-- Cached table of readings for one meter point (class `Readings`).
`requested` is the set of slot starts already confirmed fetched, `hh` the
value table keyed by slot start. -/
structure Readings where
  mpan : Int
  requested : List Ts
  hh : List (Ts × ℚ)
deriving Repr

/-- The list of requested slots `pendulum.period(ts, ts + phh(hh - 1)).range("minutes", 30)`. -/
def halfHours (ts : Ts) (hh : Nat) : List Ts :=
  periodRange30 ts (ts + phh ((hh : Int) - 1))

/-- Result of one `get_readings` call: the updated cache state, the network
fetches issued during the call (as `(start_at, first)` pairs), and either the
list of values or the raised `ValueError("missing readings")`. -/
structure GetReadingsResult where
  state : Readings
  fetches : List (Ts × Nat)
  result : Except Unit (List ℚ)

/-- The list comprehension `[self.hh[t] for t in half_hours]`, with a KeyError
(here `none`) when any slot has no stored value. -/
def lookupAll (m : List (Ts × ℚ)) : List Ts → Option (List ℚ)
  | [] => some []
  | t :: ts =>
    match m.lookup t with
    | some v => (lookupAll m ts).map (fun vs => v :: vs)
    | none => none

/-- The final `try/except` of `get_readings`: return the looked-up values, or
raise `ValueError("missing readings")` when a KeyError occurred. -/
def readValues (m : List (Ts × ℚ)) (half_hours : List Ts) : Except Unit (List ℚ) :=
  match lookupAll m half_hours with
  | some values => .ok values
  | none => .error ()

/-- `Readings.get_readings(api, ts, hh, debug)` (calculation.py lines 27–61). -/
def Readings.get_readings (self : Readings) (api : API) (ts : Ts) (hh : Nat) :
    GetReadingsResult :=
  let half_hours := halfHours ts hh
  let step :
      Readings × List (Ts × Nat) :=
    if half_hours.all (fun t => self.requested.contains t) then
      (self, [])
    else
      let start_at := ts - phh (100 - (hh : Int))
      let readings := api self.mpan start_at 100
      let requested :=
        match readings.getLast? with
        | some last => self.requested ++ periodRange30 start_at last.startAt
        | none => self.requested ++ periodRange30 start_at (start_at + phh 99)
      let table := readings.foldl (fun m r => (r.startAt, r.value) :: m) self.hh
      ({ mpan := self.mpan, requested := requested, hh := table }, [(start_at, 100)])
  { state := step.1, fetches := step.2, result := readValues step.1.hh half_hours }

/-- A saving session event (`SavingSession` dataclass, fields the core uses). -/
structure SavingSession where
  startAt : Ts
  endAt : Ts
  rewardPerKwhInOctoPoints : Int
deriving DecidableEq, Repr

/-- `SavingSession.hh` : duration in half-hour periods, `(endAt - startAt) / 30min`. -/
def SavingSession.hh (ss : SavingSession) : Nat := (ss.endAt - ss.startAt).toNat

/-- Element-wise `a + b` on per-half-hour vectors. -/
def vecAdd (a b : List ℚ) : List ℚ := List.zipWith (fun x y => x + y) a b

/-- Element-wise `a - b` on per-half-hour vectors. -/
def vecSub (a b : List ℚ) : List ℚ := List.zipWith (fun x y => x - y) a b

/-- `np.asarray(rows).mean(axis=0)` : column-wise mean of a list of rows. -/
def colMean : List (List ℚ) → List ℚ
  | [] => []
  | x :: rest => ((rest.foldl vecAdd x).map (fun v => v / ((rest.length + 1 : Nat) : ℚ)))

/-- `arr.clip(min=0)` : element-wise `max(x, 0)`. -/
def clipMin0 (a : List ℚ) : List ℚ := a.map (fun x => max x 0)

/-- `np.round` on an exact rational: round half to even (numpy semantics). -/
def npRound (x : ℚ) : Int :=
  let f := Rat.floor x
  if x - f < 1/2 then f
  else if 1/2 < x - f then f + 1
  else if f % 2 = 0 then f else f + 1

/-- `np.round(kwh * rate / 8).astype(int) * 8` element-wise (the rounded float
is integral, so `astype(int)` is exact). -/
def pointsOf (kwh : List ℚ) (rate : Int) : List Int :=
  kwh.map (fun x => npRound (x * (rate : ℚ) / 8) * 8)

/-- The mutable attributes of a `Calculation` object after `calculate` ran. -/
structure Calculation where
  ss : SavingSession
  session_import : Option (List ℚ)
  session_export : Option (List ℚ)
  baseline_days : List Ts
  baseline_import : Option (List (List ℚ))
  baseline_export : Option (List (List ℚ))
  baseline : Option (List ℚ)
  kwh : Option (List ℚ)
  points : Option (List Int)

/-- State threaded through the baseline-day loop (calculation.py lines 113–145):
the two caches, the accumulators, and the instrumentation counters. -/
structure CalcState where
  import_readings : Readings
  export_readings : Option Readings
  baseline_days : List Ts
  days : Nat
  baseline_import : List (List ℚ)
  baseline_export : List (List ℚ)
  ticks : Nat
  attempts : Nat

/-- The `for dt in previous.range("days")` loop body (calculation.py lines
116–145): filter by weekday class and session dates, fetch import (a failure
`continue`s before `next(tick)`), optionally fetch export, `next(tick)` after
the export stage, count the day, break at `days_required`. -/
def baselineLoop (api : API) (ss : SavingSession) (previous_session_days : List Int)
    (days_required : Nat) : List Ts → CalcState → CalcState
  | [], s => s
  | dt :: rest, s =>
    if weekday dt ≠ weekday ss.startAt then
      baselineLoop api ss previous_session_days days_required rest s
    else if previous_session_days.contains (date dt) then
      baselineLoop api ss previous_session_days days_required rest s
    else
      let ri := s.import_readings.get_readings api dt ss.hh
      let s1 := { s with import_readings := ri.state, attempts := s.attempts + 1 }
      match ri.result with
      | .error _ => baselineLoop api ss previous_session_days days_required rest s1
      | .ok import_values =>
        let s2 := { s1 with
          baseline_import := s1.baseline_import ++ [import_values]
          ticks := s1.ticks + 1 }
        let ex : Option Readings × List (List ℚ) × Nat :=
          match s2.export_readings with
          | some er =>
            let re := er.get_readings api dt ss.hh
            match re.result with
            | .ok export_values =>
              (some re.state, s2.baseline_export ++ [export_values], s2.attempts + 1)
            | .error _ => (some re.state, s2.baseline_export, s2.attempts + 1)
          | none => (s2.export_readings, s2.baseline_export, s2.attempts)
        let s3 := { s2 with
          export_readings := ex.1
          baseline_export := ex.2.1
          attempts := ex.2.2 }
        let s4 := { s3 with ticks := s3.ticks + 1 }
        let s5 := { s4 with
          baseline_days := s4.baseline_days ++ [dt]
          days := s4.days + 1 }
        if s5.days = days_required then s5
        else baselineLoop api ss previous_session_days days_required rest s5

/-- The post-loop aggregation (calculation.py lines 147–165): baseline mean,
export-adjusted baseline, clipped saving and quantized points. -/
def finalize (c : Calculation) (baseline_import baseline_export : List (List ℚ)) :
    Calculation :=
  if baseline_import.isEmpty then c
  else
    let baseline0 := colMean baseline_import
    let step : Option (List (List ℚ)) × List ℚ :=
      if baseline_export.isEmpty then (none, baseline0)
      else (some baseline_export, vecSub baseline0 (colMean baseline_export))
    let c1 := { c with
      baseline_import := some baseline_import
      baseline_export := step.1
      baseline := some step.2 }
    match c1.session_import with
    | none => c1
    | some si =>
      let session :=
        match c1.session_export with
        | some se => vecSub si se
        | none => si
      let kwh := clipMin0 (vecSub step.2 session)
      { c1 with
        kwh := some kwh
        points := some (pointsOf kwh c1.ss.rewardPerKwhInOctoPoints) }

/-- Result of `Calculation.calculate`: the calculation object, the final cache
states, and the instrumentation counters. -/
structure CalculateResult where
  out : Calculation
  import_readings : Readings
  export_readings : Option Readings
  ticks : Nat
  attempts : Nat

/-- The candidate list `pendulum.period(startAt - 1 day, startAt - 61 days).range("days")`. -/
def previousDays (ss : SavingSession) : List Ts :=
  periodRangeDaysDesc (ss.startAt - 48 * 1) (ss.startAt - 48 * 61)

/-- `Calculation.calculate(api, sessions, import_readings, export_readings,
tick, debug)` (calculation.py lines 76–165). -/
def Calculation.calculate (ss : SavingSession) (api : API)
    (sessions : List SavingSession) (import_readings : Readings)
    (export_readings : Option Readings) : CalculateResult :=
  let days_required : Nat := if weekday ss.startAt then 10 else 4
  let previous_session_days := sessions.map (fun s => date s.startAt)
  let previous := previousDays ss
  let r1 := import_readings.get_readings api ss.startAt ss.hh
  let session_import := r1.result.toOption
  let step2 : Option Readings × Option (List ℚ) × Nat :=
    match export_readings with
    | some er =>
      let r2 := er.get_readings api ss.startAt ss.hh
      (some r2.state, r2.result.toOption, 2)
    | none => (none, none, 1)
  let s0 : CalcState := {
    import_readings := r1.state
    export_readings := step2.1
    baseline_days := []
    days := 0
    baseline_import := []
    baseline_export := []
    ticks := 2
    attempts := step2.2.2 }
  let s := baselineLoop api ss previous_session_days days_required previous s0
  let c0 : Calculation := {
    ss := ss
    session_import := session_import
    session_export := step2.2.1
    baseline_days := s.baseline_days
    baseline_import := none
    baseline_export := none
    baseline := none
    kwh := none
    points := none }
  let c := finalize c0 s.baseline_import s.baseline_export
  { out := c
    import_readings := s.import_readings
    export_readings := s.export_readings
    ticks := s.ticks
    attempts := s.attempts }

/-- The result row returned by `Calculation.row` (calculation.py lines
167–182): a record of optional entries, `none` meaning the key is absent. -/
structure Row where
  session : Ts
  imp : Option ℚ
  exp : Option ℚ
  baseline : Option ℚ
  saved : Option ℚ
  reward : Option Int
  earnings : Option ℚ

/-- `Calculation.row()` : keys are added exactly for the non-None arrays; the
session timestamp is always present.  (`self.points` is read only under
`self.kwh is not None`; the `getD []` branch is unreachable from `calculate`.) -/
def Calculation.row (c : Calculation) : Row :=
  let ret : Row := {
    session := c.ss.startAt
    imp := none, exp := none, baseline := none
    saved := none, reward := none, earnings := none }
  let ret :=
    match c.session_import with
    | some a => { ret with imp := some a.sum }
    | none => ret
  let ret :=
    match c.session_export with
    | some a => { ret with exp := some a.sum }
    | none => ret
  let ret :=
    match c.baseline with
    | some a => { ret with baseline := some a.sum }
    | none => ret
  match c.kwh with
  | some a =>
    let reward := (c.points.getD []).sum
    { ret with
      saved := some a.sum
      reward := some reward
      earnings := some ((reward : ℚ) / 800) }
  | none => ret

/-- The progress generator built by `tick(message, start, end)` in
`streamlit_app.py` lines 299–304: the value reported at the n-th advancement —
a progress fraction for the first `total_ticks` steps, then `none` (a bare
no-op `yield`) forever; it is total, so advancing it never raises. -/
def tickStream (total_ticks : Nat) (start stop : ℚ) (n : Nat) : Option ℚ :=
  if n < total_ticks then some (start + (stop - start) * (n : ℚ) / (total_ticks : ℚ))
  else none

namespace App

/-!
The same `Readings`/`Calculation` logic is duplicated verbatim in
`src/streamlit_app.py` (lines 21–193).  The definitions below embed that copy,
over the same data model; the library helpers (`periodRange30`, `lookupAll`,
`colMean`, `npRound`, …) model pendulum/numpy functions shared by both files.
-/

/-- `phh(hh)` as defined in streamlit_app.py line 26. -/
def phh (hh : Int) : Int := hh

/-- `weekday(day)` as defined in streamlit_app.py line 21. -/
def weekday (t : Ts) : Bool := 0 ≤ day_of_week t && day_of_week t ≤ 4

/-- The requested slot list in the streamlit copy of `get_readings`. -/
def halfHours (ts : Ts) (hh : Nat) : List Ts :=
  periodRange30 ts (ts + phh ((hh : Int) - 1))

/-- `Readings.get_readings` as defined in streamlit_app.py lines 38–72. -/
def Readings.get_readings (self : Readings) (api : API) (ts : Ts) (hh : Nat) :
    GetReadingsResult :=
  let half_hours := App.halfHours ts hh
  let step :
      Readings × List (Ts × Nat) :=
    if half_hours.all (fun t => self.requested.contains t) then
      (self, [])
    else
      let start_at := ts - App.phh (100 - (hh : Int))
      let readings := api self.mpan start_at 100
      let requested :=
        match readings.getLast? with
        | some last => self.requested ++ periodRange30 start_at last.startAt
        | none => self.requested ++ periodRange30 start_at (start_at + App.phh 99)
      let table := readings.foldl (fun m r => (r.startAt, r.value) :: m) self.hh
      ({ mpan := self.mpan, requested := requested, hh := table }, [(start_at, 100)])
  { state := step.1, fetches := step.2, result := readValues step.1.hh half_hours }

/-- The baseline-day loop of the streamlit copy (streamlit_app.py lines 127–156). -/
def baselineLoop (api : API) (ss : SavingSession) (previous_session_days : List Int)
    (days_required : Nat) : List Ts → CalcState → CalcState
  | [], s => s
  | dt :: rest, s =>
    if App.weekday dt ≠ App.weekday ss.startAt then
      App.baselineLoop api ss previous_session_days days_required rest s
    else if previous_session_days.contains (date dt) then
      App.baselineLoop api ss previous_session_days days_required rest s
    else
      let ri := App.Readings.get_readings s.import_readings api dt ss.hh
      let s1 := { s with import_readings := ri.state, attempts := s.attempts + 1 }
      match ri.result with
      | .error _ => App.baselineLoop api ss previous_session_days days_required rest s1
      | .ok import_values =>
        let s2 := { s1 with
          baseline_import := s1.baseline_import ++ [import_values]
          ticks := s1.ticks + 1 }
        let ex : Option Readings × List (List ℚ) × Nat :=
          match s2.export_readings with
          | some er =>
            let re := App.Readings.get_readings er api dt ss.hh
            match re.result with
            | .ok export_values =>
              (some re.state, s2.baseline_export ++ [export_values], s2.attempts + 1)
            | .error _ => (some re.state, s2.baseline_export, s2.attempts + 1)
          | none => (s2.export_readings, s2.baseline_export, s2.attempts)
        let s3 := { s2 with
          export_readings := ex.1
          baseline_export := ex.2.1
          attempts := ex.2.2 }
        let s4 := { s3 with ticks := s3.ticks + 1 }
        let s5 := { s4 with
          baseline_days := s4.baseline_days ++ [dt]
          days := s4.days + 1 }
        if s5.days = days_required then s5
        else App.baselineLoop api ss previous_session_days days_required rest s5

/-- The post-loop aggregation of the streamlit copy (streamlit_app.py lines 158–176). -/
def finalize (c : Calculation) (baseline_import baseline_export : List (List ℚ)) :
    Calculation :=
  if baseline_import.isEmpty then c
  else
    let baseline0 := colMean baseline_import
    let step : Option (List (List ℚ)) × List ℚ :=
      if baseline_export.isEmpty then (none, baseline0)
      else (some baseline_export, vecSub baseline0 (colMean baseline_export))
    let c1 := { c with
      baseline_import := some baseline_import
      baseline_export := step.1
      baseline := some step.2 }
    match c1.session_import with
    | none => c1
    | some si =>
      let session :=
        match c1.session_export with
        | some se => vecSub si se
        | none => si
      let kwh := clipMin0 (vecSub step.2 session)
      { c1 with
        kwh := some kwh
        points := some (pointsOf kwh c1.ss.rewardPerKwhInOctoPoints) }

/-- The baseline candidate list of the streamlit copy (streamlit_app.py lines 100–102). -/
def previousDays (ss : SavingSession) : List Ts :=
  periodRangeDaysDesc (ss.startAt - 48 * 1) (ss.startAt - 48 * 61)

/-- `Calculation.calculate` as defined in streamlit_app.py lines 87–176. -/
def Calculation.calculate (ss : SavingSession) (api : API)
    (sessions : List SavingSession) (import_readings : Readings)
    (export_readings : Option Readings) : CalculateResult :=
  let days_required : Nat := if App.weekday ss.startAt then 10 else 4
  let previous_session_days := sessions.map (fun s => date s.startAt)
  let previous := App.previousDays ss
  let r1 := App.Readings.get_readings import_readings api ss.startAt ss.hh
  let session_import := r1.result.toOption
  let step2 : Option Readings × Option (List ℚ) × Nat :=
    match export_readings with
    | some er =>
      let r2 := App.Readings.get_readings er api ss.startAt ss.hh
      (some r2.state, r2.result.toOption, 2)
    | none => (none, none, 1)
  let s0 : CalcState := {
    import_readings := r1.state
    export_readings := step2.1
    baseline_days := []
    days := 0
    baseline_import := []
    baseline_export := []
    ticks := 2
    attempts := step2.2.2 }
  let s := App.baselineLoop api ss previous_session_days days_required previous s0
  let c0 : Calculation := {
    ss := ss
    session_import := session_import
    session_export := step2.2.1
    baseline_days := s.baseline_days
    baseline_import := none
    baseline_export := none
    baseline := none
    kwh := none
    points := none }
  let c := App.finalize c0 s.baseline_import s.baseline_export
  { out := c
    import_readings := s.import_readings
    export_readings := s.export_readings
    ticks := s.ticks
    attempts := s.attempts }

/-- `Calculation.row` as defined in streamlit_app.py lines 178–193. -/
def Calculation.row (c : Calculation) : Row :=
  let ret : Row := {
    session := c.ss.startAt
    imp := none, exp := none, baseline := none
    saved := none, reward := none, earnings := none }
  let ret :=
    match c.session_import with
    | some a => { ret with imp := some a.sum }
    | none => ret
  let ret :=
    match c.session_export with
    | some a => { ret with exp := some a.sum }
    | none => ret
  let ret :=
    match c.baseline with
    | some a => { ret with baseline := some a.sum }
    | none => ret
  match c.kwh with
  | some a =>
    let reward := (c.points.getD []).sum
    { ret with
      saved := some a.sum
      reward := some reward
      earnings := some ((reward : ℚ) / 800) }
  | none => ret

end App

/-!
Concrete scenarios used to witness the theorems below.  Day `1001` of the
model epoch is a Monday; `t0` is 17:30 (slot 35) of that day.
-/

/-- Session start slot: 17:30 on Monday, day 1001. -/
def t0 : Ts := 1001 * 48 + 35

/-- A two-half-hour weekday session at 1800 points per kWh. -/
def ssA : SavingSession := { startAt := t0, endAt := t0 + 2, rewardPerKwhInOctoPoints := 1800 }

/-- Import meter trace for scenario A: 0.4 and 0.6 kWh during the session,
1 kWh in every other half hour. -/
def valA (t : Ts) : ℚ := if t = t0 then 2/5 else if t = t0 + 1 then 3/5 else 1

/-- Scenario A API: every fetch returns the full 100-slot page of `valA` values. -/
def apiA : API := fun _ start _ =>
  (List.range 100).map (fun (i : Nat) => { startAt := start + (i : Int), value := valA (start + (i : Int)) })

/-- A fresh import-meter cache. -/
def st0 : Readings := { mpan := 1, requested := [], hh := [] }

/-- A fresh export-meter cache. -/
def stE0 : Readings := { mpan := 2, requested := [], hh := [] }

/-- Scenario A: import meter only, complete data. -/
def resA : CalculateResult := Calculation.calculate ssA apiA [ssA] st0 none

/-- Import trace for scenario B: 0.5 kWh during the session, 1 kWh otherwise. -/
def valBimp (t : Ts) : ℚ := if t = t0 then 1/2 else if t = t0 + 1 then 1/2 else 1

/-- Export trace for scenario B: 0 during the session, 2 kWh otherwise —
export exceeds import on every baseline day. -/
def valBexp (t : Ts) : ℚ := if t = t0 then 0 else if t = t0 + 1 then 0 else 2

/-- Scenario B API: full pages; mpan 1 serves import, mpan 2 serves export. -/
def apiB : API := fun mpan start _ =>
  (List.range 100).map (fun (i : Nat) =>
    { startAt := start + (i : Int)
      value := if mpan = 1 then valBimp (start + (i : Int)) else valBexp (start + (i : Int)) })

/-- Scenario B: export meter present, baseline mean negative. -/
def resB : CalculateResult := Calculation.calculate ssA apiB [ssA] st0 (some stE0)

/-- Scenario C API: the import meter has no data at all, the export meter is complete. -/
def apiC : API := fun mpan start _ =>
  if mpan = 1 then []
  else (List.range 100).map (fun (i : Nat) => { startAt := start + (i : Int), value := 1 })

/-- Scenario C: every import fetch fails, so every baseline day is skipped. -/
def resC : CalculateResult := Calculation.calculate ssA apiC [ssA] st0 (some stE0)

/-- Scenario D API: import data exists only strictly before the session start. -/
def apiD : API := fun _ start _ =>
  (List.range 100).filterMap (fun (i : Nat) =>
    if start + (i : Int) < t0 then some { startAt := start + (i : Int), value := 1 } else none)

/-- Scenario D: the session fetch fails but all baseline days succeed. -/
def resD : CalculateResult := Calculation.calculate ssA apiD [ssA] st0 none

/-- A concrete loop state (fresh caches, after the two session ticks) used to
witness the skip-step equation of the baseline loop. -/
def cs0 : CalcState := {
  import_readings := st0
  export_readings := none
  baseline_days := []
  days := 0
  baseline_import := []
  baseline_export := []
  ticks := 2
  attempts := 1 }

/-! Theorems. -/

set_option maxRecDepth 1000000

set_option maxHeartbeats 1000000

theorem halfHours_eq_map (ts : Ts) (hh : Nat) (h : 1 ≤ hh) :
    halfHours ts hh = (List.range hh).map (fun (i : Nat) => ts + (i : Int)) := by
  unfold halfHours periodRange30 phh
  have h1 : ts + ((hh : Int) - 1) - ts = (hh : Int) - 1 := by ring
  rw [h1]
  have h2 : ((hh : Int) - 1).toNat + 1 = hh := by omega
  rw [h2]

/-- C4 (amended): the baseline scan enumerates exactly the 61 calendar days
`t-1, t-2, …, t-61`, both endpoints included, most recent first. -/
theorem baseline_window_enumeration (ss : SavingSession) :
    previousDays ss = (List.range 61).map (fun (i : Nat) => ss.startAt - 48 * ((i : Int) + 1)) := by
  unfold previousDays periodRangeDaysDesc
  have h1 : ss.startAt - 48 * 1 - (ss.startAt - 48 * 61) = 2880 := by ring
  rw [h1]
  have h3 : ((Int.fdiv 2880 48).toNat + 1) = 61 := by decide
  rw [h3]
  have h2 : (fun i : Nat => ss.startAt - 48 * 1 - 48 * (i : Int)) =
      (fun i : Nat => ss.startAt - 48 * ((i : Int) + 1)) := by
    funext i
    ring
  rw [h2]

/-- C4 (counterexample): on the concrete session `ssA`, the scan considers 61
days, and day `t-61` is among the candidates, contradicting the claim that the
window is exactly the 60 days strictly before the start with `t-61` excluded. -/
theorem baseline_window_cx :
    (previousDays ssA).length = 61 ∧
    (ssA.startAt - 48 * 61) ∈ previousDays ssA ∧
    previousDays ssA ≠ (List.range 60).map (fun (i : Nat) => ssA.startAt - 48 * ((i : Int) + 1)) := by
  refine ⟨by decide, by decide, ?_⟩
  intro h
  have h1 : (previousDays ssA).length = 61 := by decide
  rw [h] at h1
  simp only [List.length_map, List.length_range] at h1
  exact absurd h1 (by norm_num)

/-- C5: when every requested slot is already marked fetched, `get_readings`
issues no fetch, leaves the cache untouched, and a repeat of the call returns
an identical result, whatever the network would answer. -/
theorem get_readings_idempotent (st : Readings) (ts : Ts) (hh : Nat) (api api2 : API)
    (h : (halfHours ts hh).all (fun t => st.requested.contains t) = true) :
    (st.get_readings api ts hh).fetches = [] ∧
    (st.get_readings api ts hh).state = st ∧
    st.get_readings api2 ts hh = st.get_readings api ts hh := by
  have hm : ∀ x ∈ halfHours ts hh, x ∈ st.requested := by simpa using h
  refine ⟨?_, ?_, ?_⟩ <;> simp [Readings.get_readings, if_pos hm]

/-- C5 witness state: both requested slots cached with values. -/
def st1 : Readings := { mpan := 1, requested := [5, 6], hh := [(5, 1), (6, 2)] }

theorem get_readings_idempotent_witness :
    ((halfHours 5 2).all (fun t => st1.requested.contains t) = true) ∧
    (st1.get_readings apiA 5 2).fetches = [] ∧
    (st1.get_readings apiA 5 2).state = st1 ∧
    st1.get_readings apiC 5 2 = st1.get_readings apiA 5 2 := by
  have h : (halfHours 5 2).all (fun t => st1.requested.contains t) = true := by decide
  have main := get_readings_idempotent st1 5 2 apiA apiC h
  exact ⟨h, main.1, main.2.1, main.2.2⟩

/-- C6: when some requested slot is not yet marked fetched, exactly one fetch
is issued, with constant page size 100, starting `100 - hh` half-hours before
`ts`, so the 100-slot window ends at `ts + (hh - 1)` slots; when everything is
already marked fetched, no fetch is issued. -/
theorem get_readings_fetch_policy (api : API) (st : Readings) (ts : Ts) (hh : Nat) :
    ((halfHours ts hh).all (fun t => st.requested.contains t) = false →
      (st.get_readings api ts hh).fetches = [(ts - phh (100 - (hh : Int)), 100)] ∧
      ts - phh (100 - (hh : Int)) + phh 99 = ts + phh ((hh : Int) - 1)) ∧
    ((halfHours ts hh).all (fun t => st.requested.contains t) = true →
      (st.get_readings api ts hh).fetches = []) := by
  constructor
  · intro h
    refine ⟨?_, by unfold phh; ring⟩
    have hm : ¬ ∀ x ∈ halfHours ts hh, x ∈ st.requested := by
      intro hc
      rw [show ((halfHours ts hh).all fun t => st.requested.contains t) = true by
        simpa using hc] at h
      exact absurd h (by simp)
    simp [Readings.get_readings, if_neg hm]
  · intro h
    have hm : ∀ x ∈ halfHours ts hh, x ∈ st.requested := by simpa using h
    simp [Readings.get_readings, if_pos hm]

theorem get_readings_fetch_policy_witness :
    ((halfHours 0 2).all (fun t => st0.requested.contains t) = false) ∧
    (st0.get_readings apiA 0 2).fetches = [(0 - phh (100 - (2 : Int)), 100)] ∧
    0 - phh (100 - (2 : Int)) + phh 99 = 0 + phh ((2 : Int) - 1) := by
  have h : (halfHours 0 2).all (fun t => st0.requested.contains t) = false := by decide
  have main := (get_readings_fetch_policy apiA st0 0 2).1 h
  exact ⟨h, main.1, main.2⟩

theorem lookupAll_spec (m : List (Ts × ℚ)) (l : List Ts) :
    (∃ vs, lookupAll m l = some vs ∧ vs.length = l.length ∧
      ∀ p ∈ l.zip vs, m.lookup p.1 = some p.2) ∨
    (lookupAll m l = none ∧ ∃ t ∈ l, m.lookup t = none) := by
  induction l with
  | nil => exact Or.inl ⟨[], rfl, rfl, by simp⟩
  | cons t ts ih =>
    cases hl : m.lookup t with
    | none => exact Or.inr ⟨by simp [lookupAll, hl], t, by simp, hl⟩
    | some v =>
      rcases ih with ⟨vs, h1, h2, h3⟩ | ⟨h1, t', ht', hl'⟩
      · refine Or.inl ⟨v :: vs, by simp [lookupAll, hl, h1], by simp [h2], ?_⟩
        intro p hp
        rw [List.zip_cons_cons] at hp
        rcases List.mem_cons.1 hp with rfl | hp'
        · exact hl
        · exact h3 p hp'
      · exact Or.inr ⟨by simp [lookupAll, hl, h1], t', by simp [ht'], hl'⟩

/-- C7: `get_readings` returns either a chronologically ordered list of exactly
`hh` values — one per requested slot `ts, ts+1, …, ts+hh-1`, each equal to the
stored value of its slot — or the missing-readings error when some requested
slot has no stored value; it never substitutes a default. -/
theorem get_readings_contract (api : API) (st : Readings) (ts : Ts) (hh : Nat)
    (h : 1 ≤ hh) :
    halfHours ts hh = (List.range hh).map (fun (i : Nat) => ts + (i : Int)) ∧
    ((∃ values, (st.get_readings api ts hh).result = .ok values ∧
        values.length = hh ∧
        ∀ p ∈ (halfHours ts hh).zip values,
          (st.get_readings api ts hh).state.hh.lookup p.1 = some p.2) ∨
     ((st.get_readings api ts hh).result = .error () ∧
        ∃ t ∈ halfHours ts hh, (st.get_readings api ts hh).state.hh.lookup t = none)) := by
  refine ⟨halfHours_eq_map ts hh h, ?_⟩
  have hres : (st.get_readings api ts hh).result
      = readValues (st.get_readings api ts hh).state.hh (halfHours ts hh) := rfl
  rw [hres]
  have hlen : (halfHours ts hh).length = hh := by
    rw [halfHours_eq_map ts hh h]
    simp
  rcases lookupAll_spec (st.get_readings api ts hh).state.hh (halfHours ts hh) with
    ⟨vs, h1, h2, h3⟩ | ⟨h1, t', ht', hl'⟩
  · exact Or.inl ⟨vs, by simp [readValues, h1], by rw [h2, hlen], h3⟩
  · exact Or.inr ⟨by simp [readValues, h1], t', ht', hl'⟩

theorem get_readings_contract_witness :
    (1 ≤ 2) ∧
    (halfHours t0 2 = (List.range 2).map (fun (i : Nat) => t0 + (i : Int))) ∧
    ((∃ values, (st0.get_readings apiA t0 2).result = .ok values ∧
        values.length = 2 ∧
        ∀ p ∈ (halfHours t0 2).zip values,
          (st0.get_readings apiA t0 2).state.hh.lookup p.1 = some p.2) ∨
     ((st0.get_readings apiA t0 2).result = .error () ∧
        ∃ t ∈ halfHours t0 2, (st0.get_readings apiA t0 2).state.hh.lookup t = none)) :=
  ⟨by norm_num, (get_readings_contract apiA st0 t0 2 (by norm_num)).1,
    (get_readings_contract apiA st0 t0 2 (by norm_num)).2⟩

theorem row_fields (c : Calculation) :
    c.row.session = c.ss.startAt ∧
    c.row.imp = c.session_import.map List.sum ∧
    c.row.exp = c.session_export.map List.sum ∧
    c.row.baseline = c.baseline.map List.sum ∧
    c.row.saved = c.kwh.map List.sum ∧
    c.row.reward = c.kwh.map (fun _ => (c.points.getD []).sum) ∧
    c.row.earnings = c.kwh.map (fun _ => (((c.points.getD []).sum : Int) : ℚ) / 800) := by
  rcases c with ⟨ss, si, se, bd, bi, be, b, k, p⟩
  cases si <;> cases se <;> cases b <;> cases k <;>
    simp [Calculation.row]

theorem finalize_spec (c : Calculation) (bi be : List (List ℚ))
    (hb : c.baseline = none) (hk : c.kwh = none) (hp : c.points = none) :
    (finalize c bi be).ss = c.ss ∧
    (finalize c bi be).session_import = c.session_import ∧
    (finalize c bi be).session_export = c.session_export ∧
    (finalize c bi be).baseline_days = c.baseline_days ∧
    ((finalize c bi be).kwh.isSome ↔ (finalize c bi be).points.isSome) ∧
    ((finalize c bi be).baseline = none →
      (finalize c bi be).kwh = none ∧ (finalize c bi be).points = none) ∧
    (c.session_import = none → (finalize c bi be).kwh = none) ∧
    (∀ v, (finalize c bi be).kwh = some v →
      ∃ si b, c.session_import = some si ∧ (finalize c bi be).baseline = some b ∧
        v = clipMin0 (vecSub b (match c.session_export with
          | some se => vecSub si se
          | none => si)) ∧
        (finalize c bi be).points = some (pointsOf v c.ss.rewardPerKwhInOctoPoints)) := by
  unfold finalize
  split
  · simp [hb, hk, hp]
  · cases hsi : c.session_import with
    | none => simp [hsi, hk, hp]
    | some si =>
      refine ⟨rfl, by simp [hsi], rfl, rfl, by simp, by simp, by simp, ?_⟩
      intro v hv
      rw [Option.some_inj] at hv
      subst hv
      exact ⟨si, _, rfl, rfl, rfl, rfl⟩

theorem calculate_out_shape (ss : SavingSession) (api : API) (sessions : List SavingSession)
    (ir : Readings) (er : Option Readings) :
    ∃ c0 bi be s0,
      (Calculation.calculate ss api sessions ir er).out = finalize c0 bi be ∧
      (Calculation.calculate ss api sessions ir er).ticks
        = (baselineLoop api ss (sessions.map (fun x => date x.startAt))
            (if weekday ss.startAt then 10 else 4) (previousDays ss) s0).ticks ∧
      c0.ss = ss ∧ c0.baseline = none ∧ c0.kwh = none ∧ c0.points = none ∧
      c0.baseline_days
        = (baselineLoop api ss (sessions.map (fun x => date x.startAt))
            (if weekday ss.startAt then 10 else 4) (previousDays ss) s0).baseline_days ∧
      s0.baseline_days = [] ∧ s0.days = 0 ∧ s0.ticks = 2 :=
  ⟨_, _, _, _, rfl, rfl, rfl, rfl, rfl, rfl, rfl, rfl, rfl, rfl⟩

theorem clipMin0_nonneg (a : List ℚ) : ∀ x ∈ clipMin0 a, 0 ≤ x := by
  intro x hx
  obtain ⟨y, _, rfl⟩ := List.mem_map.1 hx
  exact le_max_right y 0

/-- C1: whenever a saved-energy vector is computed, the points vector is the
per-slot `round(saved * rate / 8) * 8`, the total reward (its sum, as reported
in the row) is divisible by 8, and the reported earnings equal reward / 800. -/
theorem reward_quantization (ss : SavingSession) (api : API) (sessions : List SavingSession)
    (ir : Readings) (er : Option Readings) (v : List ℚ)
    (h : (Calculation.calculate ss api sessions ir er).out.kwh = some v) :
    (Calculation.calculate ss api sessions ir er).out.points
        = some (v.map (fun x => npRound (x * ((ss.rewardPerKwhInOctoPoints : Int) : ℚ) / 8) * 8)) ∧
    (8 : Int) ∣ ((Calculation.calculate ss api sessions ir er).out.points.getD []).sum ∧
    ((Calculation.calculate ss api sessions ir er).out.row.reward
        = some (((Calculation.calculate ss api sessions ir er).out.points.getD []).sum)) ∧
    ((Calculation.calculate ss api sessions ir er).out.row.earnings
        = some (((((Calculation.calculate ss api sessions ir er).out.points.getD []).sum : Int) : ℚ) / 800)) := by
  obtain ⟨c0, bi, be, s0, hout, hticks, hss, hb, hk, hp, hdays, hs1, hs2, hs3⟩ :=
    calculate_out_shape ss api sessions ir er
  have fs := finalize_spec c0 bi be hb hk hp
  rw [hout] at h ⊢
  obtain ⟨si, b, hsi, hbase, hv, hpoints⟩ := fs.2.2.2.2.2.2.2 v h
  have hpts : (finalize c0 bi be).points = some (pointsOf v ss.rewardPerKwhInOctoPoints) := by
    rw [hpoints, hss]
  have hdvd : (8 : Int) ∣ (pointsOf v ss.rewardPerKwhInOctoPoints).sum := by
    apply List.dvd_sum
    intro p hpmem
    unfold pointsOf at hpmem
    obtain ⟨x, _, rfl⟩ := List.mem_map.1 hpmem
    exact ⟨npRound (x * ((ss.rewardPerKwhInOctoPoints : Int) : ℚ) / 8), by ring⟩
  have rf := row_fields (finalize c0 bi be)
  refine ⟨by rw [hpts]; rfl, by rw [hpts]; simpa using hdvd, ?_, ?_⟩
  · rw [rf.2.2.2.2.2.1, h]
    rfl
  · rw [rf.2.2.2.2.2.2, h]
    rfl

theorem reward_quantization_witness :
    resA.out.kwh = some [3/5, 2/5] ∧
    ((8 : Int) ∣ (resA.out.points.getD []).sum) ∧
    resA.out.row.reward = some 1800 ∧
    resA.out.row.earnings = some (9/4) := by
  have h : resA.out.kwh = some [3/5, 2/5] := by with_unfolding_all rfl
  have main := reward_quantization ssA apiA [ssA] st0 none [3/5, 2/5] h
  have e : ((Calculation.calculate ssA apiA [ssA] st0 none).out.points.getD []).sum = 1800 := by
    with_unfolding_all rfl
  refine ⟨h, main.2.1, ?_, ?_⟩
  · rw [show resA = Calculation.calculate ssA apiA [ssA] st0 none from rfl,
      main.2.2.1, e]
  · rw [show resA = Calculation.calculate ssA apiA [ssA] st0 none from rfl,
      main.2.2.2, e]
    norm_num

/-- C2: whenever the saved-energy vector is computed, it equals the element-wise
`max(0, baseline - effective_session)` with effective session = import minus
export (missing export treated by using the import alone), so every element is
nonnegative. -/
theorem saved_energy_clipped (ss : SavingSession) (api : API) (sessions : List SavingSession)
    (ir : Readings) (er : Option Readings) (v : List ℚ)
    (h : (Calculation.calculate ss api sessions ir er).out.kwh = some v) :
    (∃ b si, (Calculation.calculate ss api sessions ir er).out.baseline = some b ∧
      (Calculation.calculate ss api sessions ir er).out.session_import = some si ∧
      v = clipMin0 (vecSub b
        (match (Calculation.calculate ss api sessions ir er).out.session_export with
          | some se => vecSub si se
          | none => si))) ∧
    ∀ x ∈ v, 0 ≤ x := by
  obtain ⟨c0, bi, be, s0, hout, hticks, hss, hb, hk, hp, hdays, hs1, hs2, hs3⟩ :=
    calculate_out_shape ss api sessions ir er
  have fs := finalize_spec c0 bi be hb hk hp
  rw [hout] at h ⊢
  obtain ⟨si, b, hsi, hbase, hv, hpoints⟩ := fs.2.2.2.2.2.2.2 v h
  constructor
  · refine ⟨b, si, hbase, ?_, ?_⟩
    · rw [fs.2.1, hsi]
    · rw [fs.2.2.1, hv]
  · rw [hv]
    exact clipMin0_nonneg _

theorem saved_energy_clipped_witness :
    resB.out.kwh = some [0, 0] ∧
    resB.out.baseline = some [-1, -1] ∧
    (resB.out.baseline.getD []).sum < 0 ∧
    (∀ x ∈ ([0, 0] : List ℚ), 0 ≤ x) := by
  have h : resB.out.kwh = some [0, 0] := by with_unfolding_all rfl
  have main := saved_energy_clipped ssA apiB [ssA] st0 (some stE0) [0, 0] h
  refine ⟨h, by with_unfolding_all rfl, ?_, main.2⟩
  have e : (resB.out.baseline.getD []).sum = -2 := by with_unfolding_all rfl
  rw [e]
  norm_num

/-- C8: `calculate` is total (all fetch failures are mapped to absent data),
the row always carries the session timestamp, each row key is present exactly
when its array is non-null, a missing session import leaves baseline reporting
intact but removes reward and earnings, and a missing baseline suppresses the
saving and points computation while session totals remain reported. -/
theorem calculate_partial_row (ss : SavingSession) (api : API) (sessions : List SavingSession)
    (ir : Readings) (er : Option Readings) :
    (Calculation.calculate ss api sessions ir er).out.row.session = ss.startAt ∧
    (Calculation.calculate ss api sessions ir er).out.row.imp
      = (Calculation.calculate ss api sessions ir er).out.session_import.map List.sum ∧
    (Calculation.calculate ss api sessions ir er).out.row.exp
      = (Calculation.calculate ss api sessions ir er).out.session_export.map List.sum ∧
    (Calculation.calculate ss api sessions ir er).out.row.baseline
      = (Calculation.calculate ss api sessions ir er).out.baseline.map List.sum ∧
    (Calculation.calculate ss api sessions ir er).out.row.saved
      = (Calculation.calculate ss api sessions ir er).out.kwh.map List.sum ∧
    ((Calculation.calculate ss api sessions ir er).out.row.reward.isSome
      ↔ (Calculation.calculate ss api sessions ir er).out.kwh.isSome) ∧
    ((Calculation.calculate ss api sessions ir er).out.row.earnings.isSome
      ↔ (Calculation.calculate ss api sessions ir er).out.kwh.isSome) ∧
    ((Calculation.calculate ss api sessions ir er).out.kwh.isSome
      ↔ (Calculation.calculate ss api sessions ir er).out.points.isSome) ∧
    ((Calculation.calculate ss api sessions ir er).out.session_import = none →
      (Calculation.calculate ss api sessions ir er).out.kwh = none ∧
      (Calculation.calculate ss api sessions ir er).out.row.reward = none ∧
      (Calculation.calculate ss api sessions ir er).out.row.earnings = none) ∧
    ((Calculation.calculate ss api sessions ir er).out.baseline = none →
      (Calculation.calculate ss api sessions ir er).out.kwh = none ∧
      (Calculation.calculate ss api sessions ir er).out.points = none) := by
  obtain ⟨c0, bi, be, s0, hout, hticks, hss, hb, hk, hp, hdays, hs1, hs2, hs3⟩ :=
    calculate_out_shape ss api sessions ir er
  have fs := finalize_spec c0 bi be hb hk hp
  have rf := row_fields (finalize c0 bi be)
  rw [hout]
  refine ⟨by rw [rf.1, fs.1, hss], rf.2.1, rf.2.2.1, rf.2.2.2.1, rf.2.2.2.2.1,
    ?_, ?_, fs.2.2.2.2.1, ?_, fs.2.2.2.2.2.1⟩
  · rw [rf.2.2.2.2.2.1]
    simp
  · rw [rf.2.2.2.2.2.2]
    simp
  · intro hnone
    have hkwh : (finalize c0 bi be).kwh = none := by
      apply fs.2.2.2.2.2.2.1
      rw [fs.2.1] at hnone
      exact hnone
    exact ⟨hkwh, by rw [rf.2.2.2.2.2.1, hkwh]; rfl, by rw [rf.2.2.2.2.2.2, hkwh]; rfl⟩

theorem calculate_partial_row_witness :
    resD.out.session_import = none ∧
    resD.out.row.baseline = some 2 ∧
    resD.out.row.reward = none ∧
    resD.out.row.earnings = none ∧
    resD.out.row.session = ssA.startAt := by
  have main := calculate_partial_row ssA apiD [ssA] st0 none
  have hnone : resD.out.session_import = none := by with_unfolding_all rfl
  have h9 := main.2.2.2.2.2.2.2.2.1 hnone
  exact ⟨hnone, by with_unfolding_all rfl, h9.2.1, h9.2.2, main.1⟩

theorem baselineLoop_days (api : API) (ss : SavingSession) (psd : List Int) (req : Nat)
    (l : List Ts) (s : CalcState) :
    ∃ extra, (baselineLoop api ss psd req l s).baseline_days = s.baseline_days ++ extra ∧
      (∀ d ∈ extra, d ∈ l ∧ weekday d = weekday ss.startAt ∧ psd.contains (date d) = false) ∧
      (baselineLoop api ss psd req l s).days = s.days + extra.length := by
  induction l generalizing s with
  | nil => exact ⟨[], by simp [baselineLoop], by simp, by simp [baselineLoop]⟩
  | cons dt rest ih =>
    simp only [baselineLoop]
    split
    · obtain ⟨extra, h1, h2, h3⟩ := ih s
      exact ⟨extra, h1, fun d hd => ⟨List.mem_cons_of_mem dt (h2 d hd).1,
        (h2 d hd).2.1, (h2 d hd).2.2⟩, h3⟩
    · split
      · obtain ⟨extra, h1, h2, h3⟩ := ih s
        exact ⟨extra, h1, fun d hd => ⟨List.mem_cons_of_mem dt (h2 d hd).1,
          (h2 d hd).2.1, (h2 d hd).2.2⟩, h3⟩
      · next hw hc =>
        split
        · next herr =>
          obtain ⟨extra, h1, h2, h3⟩ := ih _
          refine ⟨extra, by simpa using h1, fun d hd => ⟨List.mem_cons_of_mem dt (h2 d hd).1,
            (h2 d hd).2.1, (h2 d hd).2.2⟩, by simpa using h3⟩
        · next vals hok =>
          have hw' : weekday dt = weekday ss.startAt := not_not.1 hw
          have hc' : psd.contains (date dt) = false := by
            simpa using hc
          split
          · next hdone =>
            refine ⟨[dt], by simp, ?_, by simp⟩
            intro d hd
            rcases List.mem_singleton.1 hd with rfl
            exact ⟨List.mem_cons_self d rest, hw', hc'⟩
          · next hnotdone =>
            obtain ⟨extra, h1, h2, h3⟩ := ih _
            refine ⟨dt :: extra, ?_, ?_, ?_⟩
            · rw [h1]
              simp
            · intro d hd
              rcases List.mem_cons.1 hd with rfl | hd'
              · exact ⟨List.mem_cons_self d rest, hw', hc'⟩
              · exact ⟨List.mem_cons_of_mem dt (h2 d hd').1, (h2 d hd').2.1, (h2 d hd').2.2⟩
            · rw [h3]
              simp
              omega

theorem baselineLoop_le (api : API) (ss : SavingSession) (psd : List Int) (req : Nat)
    (l : List Ts) (s : CalcState) (h : s.days < req) :
    (baselineLoop api ss psd req l s).days ≤ req := by
  induction l generalizing s with
  | nil => simpa [baselineLoop] using Nat.le_of_lt h
  | cons dt rest ih =>
    simp only [baselineLoop]
    split
    · exact ih s h
    · split
      · exact ih s h
      · split
        · exact ih _ (by simpa using h)
        · split
          · next hdone => simp at hdone ⊢; omega
          · next hnotdone =>
            apply ih
            simp at hnotdone ⊢
            omega

theorem baselineLoop_ticks (api : API) (ss : SavingSession) (psd : List Int) (req : Nat)
    (l : List Ts) (s : CalcState) :
    (baselineLoop api ss psd req l s).ticks + 2 * s.baseline_days.length
      = s.ticks + 2 * (baselineLoop api ss psd req l s).baseline_days.length := by
  induction l generalizing s with
  | nil => simp [baselineLoop]
  | cons dt rest ih =>
    simp only [baselineLoop]
    split
    · exact ih s
    · split
      · exact ih s
      · split
        · simpa using ih _
        · split
          · simp
            omega
          · have step : ∀ s' : CalcState, s'.ticks = s.ticks + 2 →
                s'.baseline_days.length = s.baseline_days.length + 1 →
                (baselineLoop api ss psd req rest s').ticks + 2 * s.baseline_days.length
                  = s.ticks + 2 * (baselineLoop api ss psd req rest s').baseline_days.length := by
              intro s' h1 h2
              have := ih s'
              omega
            exact step _ (by simp) (by simp)

/-- C3: every selected baseline day matches the event's weekday/weekend class,
its calendar date is not the start date of any known session, the list never
exceeds 10 days (weekday event) or 4 (weekend event), and a candidate day
whose import fetch fails is skipped — the loop continues on the remaining
days with the day not counted, only the cache and attempt count updated. -/
theorem baseline_day_selection (ss : SavingSession) (api : API) (sessions : List SavingSession)
    (ir : Readings) (er : Option Readings) :
    (∀ d ∈ (Calculation.calculate ss api sessions ir er).out.baseline_days,
      weekday d = weekday ss.startAt ∧
      date d ∉ sessions.map (fun x => date x.startAt)) ∧
    ((Calculation.calculate ss api sessions ir er).out.baseline_days.length
      ≤ if weekday ss.startAt then 10 else 4) ∧
    (∀ psd req dt rest s, weekday dt = weekday ss.startAt →
      psd.contains (date dt) = false →
      ((s.import_readings.get_readings api dt ss.hh).result = .error ()) →
      baselineLoop api ss psd req (dt :: rest) s =
        baselineLoop api ss psd req rest
          { s with import_readings := (s.import_readings.get_readings api dt ss.hh).state,
                   attempts := s.attempts + 1 }) := by
  obtain ⟨c0, bi, be, s0, hout, hticks, hss, hb, hk, hp, hdays, hsbd, hsd, hst⟩ :=
    calculate_out_shape ss api sessions ir er
  have fs := finalize_spec c0 bi be hb hk hp
  have hob : (Calculation.calculate ss api sessions ir er).out.baseline_days
      = (baselineLoop api ss (sessions.map (fun x => date x.startAt))
          (if weekday ss.startAt then 10 else 4) (previousDays ss) s0).baseline_days := by
    rw [hout, fs.2.2.2.1, hdays]
  obtain ⟨extra, he1, he2, he3⟩ := baselineLoop_days api ss
    (sessions.map (fun x => date x.startAt))
    (if weekday ss.startAt then 10 else 4) (previousDays ss) s0
  refine ⟨?_, ?_, ?_⟩
  · intro d hd
    rw [hob, he1, hsbd] at hd
    simp only [List.nil_append] at hd
    refine ⟨(he2 d hd).2.1, ?_⟩
    have hc := (he2 d hd).2.2
    simp at hc
    intro hmem
    obtain ⟨x, hx, hxe⟩ := List.mem_map.1 hmem
    exact hc x hx hxe
  · have hlt : s0.days < (if weekday ss.startAt then 10 else 4) := by
      rw [hsd]
      split <;> norm_num
    have hle := baselineLoop_le api ss (sessions.map (fun x => date x.startAt))
      (if weekday ss.startAt then 10 else 4) (previousDays ss) s0 hlt
    rw [hob, he1, hsbd]
    simp only [List.nil_append]
    rw [hsd] at he3
    omega
  · intro psd req dt rest s hwdt hcdt herr
    simp only [baselineLoop]
    rw [if_neg (not_not_intro hwdt), if_neg (by rw [hcdt]; simp), herr]

theorem baseline_day_selection_witness :
    resA.out.baseline_days.length ≤ 10 ∧
    resA.out.baseline_days.length = 10 ∧
    ((cs0.import_readings.get_readings apiD t0 ssA.hh).result = .error ()) ∧
    (baselineLoop apiD ssA [] 10 (t0 :: []) cs0 =
      baselineLoop apiD ssA [] 10 []
        { cs0 with import_readings := (cs0.import_readings.get_readings apiD t0 ssA.hh).state,
                   attempts := cs0.attempts + 1 }) := by
  have main1 := baseline_day_selection ssA apiA [ssA] st0 none
  have main2 := baseline_day_selection ssA apiD [ssA] st0 none
  have h10 : (if weekday ssA.startAt then 10 else 4) = 10 := by decide
  have herr : (cs0.import_readings.get_readings apiD t0 ssA.hh).result = .error () := by
    with_unfolding_all rfl
  refine ⟨?_, by with_unfolding_all rfl, herr, ?_⟩
  · have := main1.2.1
    rw [h10] at this
    exact this
  · exact main2.2.2 [] 10 t0 [] cs0 rfl (by decide) herr

/-- C9 (amended): the generator is advanced once after the session-import
attempt and once after the session-export stage (attempted or not), and then
twice per baseline day that is kept — a failed baseline-day import advances no
tick — so the total is 2 + 2·(number of baseline days); the generator itself
yields a bare no-op forever once its step budget is spent, so advancing it
never fails. -/
theorem tick_discipline (ss : SavingSession) (api : API) (sessions : List SavingSession)
    (ir : Readings) (er : Option Readings) :
    ((Calculation.calculate ss api sessions ir er).ticks
      = 2 + 2 * (Calculation.calculate ss api sessions ir er).out.baseline_days.length) ∧
    (∀ total_ticks start stop n, total_ticks ≤ n → tickStream total_ticks start stop n = none) := by
  obtain ⟨c0, bi, be, s0, hout, hticks, hss, hb, hk, hp, hdays, hsbd, hsd, hst⟩ :=
    calculate_out_shape ss api sessions ir er
  have fs := finalize_spec c0 bi be hb hk hp
  constructor
  · have hob : (Calculation.calculate ss api sessions ir er).out.baseline_days
        = (baselineLoop api ss (sessions.map (fun x => date x.startAt))
            (if weekday ss.startAt then 10 else 4) (previousDays ss) s0).baseline_days := by
      rw [hout, fs.2.2.2.1, hdays]
    have ht := baselineLoop_ticks api ss (sessions.map (fun x => date x.startAt))
      (if weekday ss.startAt then 10 else 4) (previousDays ss) s0
    rw [hsbd, hst] at ht
    rw [hticks, hob]
    simp at ht
    omega
  · intro total_ticks start stop n hn
    unfold tickStream
    rw [if_neg (by omega)]

theorem tick_discipline_witness :
    resA.ticks = 2 + 2 * resA.out.baseline_days.length ∧
    tickStream 22 0 1 30 = none := by
  have main := tick_discipline ssA apiA [ssA] st0 none
  exact ⟨main.1, main.2 22 0 1 30 (by norm_num)⟩

/-- C9 (counterexample): in scenario C the loop makes 45 `get_readings`
attempts (session import, session export, and 43 baseline-day import attempts
that all fail) but the tick generator is advanced only twice — a failed
baseline-day import `continue`s before its `next(tick)`, so the generator is
not advanced once per fetch attempt. -/
theorem tick_per_fetch_cx :
    resC.ticks = 2 ∧ resC.attempts = 45 ∧ resC.ticks < resC.attempts := by
  have h1 : resC.ticks = 2 := by with_unfolding_all rfl
  have h2 : resC.attempts = 45 := by with_unfolding_all rfl
  exact ⟨h1, h2, by rw [h1, h2]; norm_num⟩

theorem app_phh_eq : App.phh = phh := rfl

theorem app_weekday_eq : App.weekday = weekday := rfl

theorem app_halfHours_eq : App.halfHours = halfHours := rfl

theorem app_get_readings_eq : App.Readings.get_readings = Readings.get_readings := rfl

theorem app_finalize_eq : App.finalize = finalize := rfl

theorem app_previousDays_eq : App.previousDays = previousDays := rfl

theorem app_row_eq : App.Calculation.row = Calculation.row := rfl

theorem app_baselineLoop_eq (api : API) (ss : SavingSession) (psd : List Int) (req : Nat)
    (l : List Ts) (s : CalcState) :
    App.baselineLoop api ss psd req l s = baselineLoop api ss psd req l s := by
  induction l generalizing s with
  | nil => rfl
  | cons dt rest ih =>
    simp only [App.baselineLoop, baselineLoop, app_weekday_eq, app_get_readings_eq]
    split
    · exact ih s
    · split
      · exact ih s
      · split
        · exact ih _
        · split
          · rfl
          · exact ih _

theorem app_calculate_eq (ss : SavingSession) (api : API) (sessions : List SavingSession)
    (ir : Readings) (er : Option Readings) :
    App.Calculation.calculate ss api sessions ir er = Calculation.calculate ss api sessions ir er := by
  simp only [App.Calculation.calculate, Calculation.calculate, app_weekday_eq,
    app_get_readings_eq, app_finalize_eq, app_previousDays_eq, app_baselineLoop_eq]

/-- C10: the `Readings` and `Calculation` logic duplicated in
`src/streamlit_app.py` is behaviorally identical to the copy in
`src/savingsessions/calculation.py`: `get_readings` performs the same fetches
and returns the same values on every input and cache state, and
`calculate`/`row` produce identical results. -/
theorem streamlit_copy_equivalent :
    App.Readings.get_readings = Readings.get_readings ∧
    (∀ ss api sessions ir er,
      App.Calculation.calculate ss api sessions ir er
        = Calculation.calculate ss api sessions ir er) ∧
    App.Calculation.row = Calculation.row :=
  ⟨app_get_readings_eq, app_calculate_eq, app_row_eq⟩

end SavingSessions
